import Mathlib

/-!
Shallow embedding of the Remote Listing & File Resolution Engine of
`pyausec` (`src/pyausec/elec_grabber.py`), together with theorems checking
the natural-language specification against it.

Conventions of the embedding:
* a Python `str` is a Lean `String`; its operations (`split`, `in`,
  `endswith`, `<`) are defined here by structural recursion over the
  character list `String.data`, so that every definition evaluates inside
  the kernel;
* the FTP listing is a `List String` of absolute remote paths;
* Python `raise ValueError(msg)` is an `Except GrabberError` error whose
  constructor is named after the error-taxonomy name the specification
  assigns to that message;
* Python `list.sort()` on strings is `List.insertionSort strLe`, where
  `strLe` is Python's string comparison (any sorted permutation of a list
  is unique for a linear order, so the choice of sorting algorithm is
  immaterial);
* the mutable instance state (`cache_dir`, filesystem contents of the cache
  directory, `tracked_files`) is an explicit `GrabberState` record, and
  `download_file` returns the new state together with a flag telling whether
  a network transfer was issued;
* an FTP server is a finite tree of named entries; `ftp.nlst()` at a node
  returns the names of its children.
-/

/-- Error taxonomy of the engine. Each constructor corresponds to one
`raise ValueError(...)` site in the source (the message identifies it),
using the names the specification gives to those failure modes. -/
inductive GrabberError where
  /-- An entry of the listing has no second `/`-segment, so Python
  `file.split("/")[1]` would raise `IndexError`. -/
  | indexError
  /-- "No elections found in the FTP listing." -/
  | noElectionFound
  /-- "Multiple elections found in the FTP listing, please specify an override." -/
  | ambiguousElection
  /-- "Override election ... not found in the FTP listing." -/
  | overrideNotFound
  /-- "No preload files found in ..." -/
  | noMatch
  /-- "No files found on the FTP server." -/
  | emptyListing
  deriving DecidableEq, Repr

instance {ε α : Type} [DecidableEq ε] [DecidableEq α] : DecidableEq (Except ε α) := fun x y =>
  match x, y with
  | .ok a, .ok b =>
    if h : a = b then .isTrue (by rw [h]) else .isFalse (by simp [h])
  | .error e, .error f =>
    if h : e = f then .isTrue (by rw [h]) else .isFalse (by simp [h])
  | .ok _, .error _ => .isFalse (by simp)
  | .error _, .ok _ => .isFalse (by simp)

/-- Python `s.split(sep)` for a one-character separator, on the character
list of the string: splitting `""` gives `[""]`, and separators at either
end produce empty pieces, exactly as in Python. -/
def splitChar (sep : Char) : List Char → List (List Char)
  | [] => [[]]
  | c :: cs =>
    let rest := splitChar sep cs
    if c == sep then [] :: rest
    else
      match rest with
      | [] => [[c]]
      | r :: rs => (c :: r) :: rs

/-- Python `s.split("/")` (the source only ever splits on `"/"`). -/
def pySplit (s : String) (sep : Char) : List String :=
  (splitChar sep s.data).map String.mk

/-- Occurrence of `pat` as a contiguous sublist of the haystack: the
character-level content of Python `pat in hay`. -/
def containsSub (pat : List Char) : List Char → Bool
  | [] => pat.isEmpty
  | c :: t => pat.isPrefixOf (c :: t) || containsSub pat t

/-- Python substring test `pat in hay`. -/
def strContains (hay pat : String) : Bool :=
  containsSub pat.data hay.data

/-- Python `s.endswith(pat)`. -/
def strEndsWith (s pat : String) : Bool :=
  pat.data.isSuffixOf s.data

/-- Python `<` on strings: lexicographic comparison of the character
sequences by code point. -/
def pyLt : List Char → List Char → Bool
  | _, [] => false
  | [], _ :: _ => true
  | a :: as, b :: bs => decide (a < b) || (a == b && pyLt as bs)

/-- Python `a <= b` on strings (as a proposition): `not (b < a)`. This is
the order under which Python `list.sort()` arranges the listing. -/
def strLe (a b : String) : Prop :=
  pyLt b.data a.data = false

instance : DecidableRel strLe :=
  fun a b => inferInstanceAs (Decidable (pyLt b.data a.data = false))

/-- Python truthiness of an `str | None` value: `None` and `""` are falsy. -/
def truthy : Option String → Bool
  | none => false
  | some s => s != ""

/-- The second `/`-delimited segment of a path: Python `file.split("/")[1]`,
`none` when the split has fewer than two pieces. -/
def secondSeg (file : String) : Option String :=
  (pySplit file '/').get? 1

/-- Embedding of `AusElectionGrabber.get_election` (elec_grabber.py:50-71).
`listing` is `self.ftp_listing`; the distinct-value set
`election_list_scratch_set` is the `dedup` of the segment list, and
`set.pop()` on the (necessarily singleton) set is its head. -/
def get_election (listing : List String) (override : Option String) :
    Except GrabberError String :=
  match listing.mapM secondSeg with
  | none => .error .indexError
  | some segs =>
    let distinct := segs.dedup
    if distinct.length == 0 then .error .noElectionFound
    else if !truthy override && distinct.length > 1 then .error .ambiguousElection
    else if truthy override then
      if distinct.contains (override.getD "") then .ok (override.getD "")
      else .error .overrideNotFound
    else .ok (distinct.headD "")

/-- Python `list.sort()` for lists of strings: ascending lexicographic.
For a linear order a sorted permutation of a list is unique, so insertion
sort produces exactly the list Python's sort produces. -/
def sortStrings (l : List String) : List String :=
  l.insertionSort strLe

/-- The final `/`-segment of a path: Python `s.split("/")[-1]` (`split`
never returns an empty list, so the default is never used). -/
def lastSegment (s : String) : String :=
  (pySplit s '/').getLastD ""

/-- The filter of `_get_latest_ftp_file_from_path`
(elec_grabber.py:78): `path in file and file.endswith(file_extension)`. -/
def matchesFilter (path fileExt file : String) : Bool :=
  strContains file path && strEndsWith file fileExt

/-- The pure selection part of
`AusElectionGrabber._get_latest_ftp_file_from_path` (elec_grabber.py:74-90):
filter the listing, fail when nothing matches, warn (first component of the
result) when more than one match is found for the `"preload"` role, sort,
take the last element, and return its bare file name. -/
def selectLatest (listing : List String) (path role fileExt : String) :
    Except GrabberError (Bool × String) :=
  let file_shortlist := listing.filter (matchesFilter path fileExt)
  if file_shortlist.length == 0 then .error .noMatch
  else
    let warned := decide (file_shortlist.length > 1) && role == "preload"
    .ok (warned, lastSegment ((sortStrings file_shortlist).getLastD ""))

/-- Mutable state of one `AusElectionGrabber` session:
`cache_dir`, the set of files existing in the local filesystem (as their
full local paths), and `self.tracked_files`. -/
structure GrabberState where
  cacheDir : String
  fs : String → Bool
  tracked : String → Option String

/-- `self.cache_dir / file_name` (elec_grabber.py:154). -/
def localPath (cacheDir name : String) : String :=
  cacheDir ++ "/" ++ name

/-- Embedding of `AusElectionGrabber.download_file` (elec_grabber.py:149-166).
Returns the new state and whether a network transfer was issued: when the
target file already exists the transfer is skipped, otherwise the file is
fetched and created; in both cases `tracked_files[file_role]` is assigned
the local path. -/
def download_file (s : GrabberState) (dir name role : String) :
    GrabberState × Bool :=
  let output_file := localPath s.cacheDir name
  if s.fs output_file then
    ({ s with tracked := fun r => if r == role then some output_file else s.tracked r },
     false)
  else
    ({ s with
        fs := fun p => p == output_file || s.fs p,
        tracked := fun r => if r == role then some output_file else s.tracked r },
     true)

/-- Embedding of the whole of `_get_latest_ftp_file_from_path`
(elec_grabber.py:74-93): select the latest matching file, download it under
the given role, and return the new state, the bare file name selected, and
`self.tracked_files[file_role]`. The unused `dir` argument of
`download_file` is the directory `path` itself (elec_grabber.py:92). -/
def get_latest_ftp_file_from_path (listing : List String) (s : GrabberState)
    (path role fileExt : String) :
    Except GrabberError (GrabberState × String × String) :=
  match selectLatest listing path role fileExt with
  | .error err => .error err
  | .ok (_warned, name) =>
    let s1 := (download_file s path name role).1
    .ok (s1, name, (s1.tracked role).getD "")

/-- An FTP server as a finite tree: each node is a remote directory entry
and `ftp.nlst()` at it returns the names of its children (a leaf file is a
node with no children). -/
inductive FtpTree where
  | node : List (String × FtpTree) → FtpTree

/-- Embedding of `_recurse_get_paths` (elec_grabber.py:178-200): for each
entry at the current path, append its full path, and recurse into it when
its name contains no `.` (the source's file/directory classification). -/
def recurse_get_paths (path : String) : FtpTree → List String
  | .node children =>
    match children with
    | [] => []
    | (name, sub) :: rest =>
      let full_path := path ++ "/" ++ name
      (full_path ::
        (if strContains name "." then [] else recurse_get_paths full_path sub)) ++
        recurse_get_paths path (.node rest)

/-- Embedding of `AusElectionGrabber.refresh_ftp_file_list`
(elec_grabber.py:168-209): traverse from the root, sort the accumulated
paths, and fail when there are none. On success the result is the new
`self.ftp_listing`. -/
def refresh_ftp_file_list (server : FtpTree) : Except GrabberError (List String) :=
  let paths := sortStrings (recurse_get_paths "" server)
  if paths.length == 0 then .error .emptyListing
  else .ok paths

/-- The member names `populate_election`, `populate_candidates` and
`get_latest_results` pass to `_get_file_as_str_from_zip`
(elec_grabber.py:108, 117, 134). -/
def electionMemberName (e : String) : String :=
  "xml/eml-110-event-" ++ e ++ ".xml"

/-- See `electionMemberName` (elec_grabber.py:117). -/
def candidatesMemberName (e : String) : String :=
  "xml/eml-230-candidates-" ++ e ++ ".xml"

/-- See `electionMemberName` (elec_grabber.py:134). -/
def resultsMemberName (e : String) : String :=
  "xml/aec-mediafeed-results-standard-light-" ++ e ++ ".xml"

/-- Result of a successful `AusElectionGrabber.__init__` run: the resolved
election, the bare file names selected for the preload and results bundles,
the trace of `(zip path, member name)` arguments passed to
`_get_file_as_str_from_zip`, and the final session state. -/
structure InitResult where
  election : String
  preloadName : String
  resultsName : String
  extractTrace : List (String × String)
  state : GrabberState

/-- Embedding of `AusElectionGrabber.__init__` (elec_grabber.py:18-41) after
`refresh_ftp_file_list`: resolve the election, then run
`populate_election` (which calls `get_preload`, elec_grabber.py:95-109),
`populate_candidates` (which calls `get_preload` again, elec_grabber.py:111-118)
and `get_latest_results` (elec_grabber.py:123-135). Archive extraction is
modelled as the trace of `(zip path, member name)` pairs passed to
`_get_file_as_str_from_zip`; `fs0` is the filesystem content of the cache
directory when the session starts. -/
def grabber_init (listing : List String) (override : Option String)
    (cacheDir : String) (fs0 : String → Bool) : Except GrabberError InitResult :=
  match get_election listing override with
  | .error err => .error err
  | .ok e =>
    match get_latest_ftp_file_from_path listing
        { cacheDir := cacheDir, fs := fs0, tracked := fun _ => none }
        ("/" ++ e ++ "/Detailed/Preload") "preload" ".zip" with
    | .error err => .error err
    | .ok (s1, pname, ppath) =>
      match get_latest_ftp_file_from_path listing s1
          ("/" ++ e ++ "/Detailed/Preload") "preload" ".zip" with
      | .error err => .error err
      | .ok (s2, _pname2, ppath2) =>
        match get_latest_ftp_file_from_path listing s2
            ("/" ++ e ++ "/Standard/Light") "results" ".zip" with
        | .error err => .error err
        | .ok (s3, rname, rpath) =>
          .ok { election := e,
                preloadName := pname,
                resultsName := rname,
                extractTrace := [(ppath, electionMemberName e),
                                 (ppath2, candidatesMemberName e),
                                 (rpath, resultsMemberName e)],
                state := s3 }

/-! Order-theoretic facts about `pyLt` and `strLe`, needed to show that the
last element of the sorted shortlist is its lexicographic maximum. -/

theorem pyLt_irrefl (a : List Char) : pyLt a a = false := by
  induction a with
  | nil => rfl
  | cons c t ih => simp [pyLt, ih]

theorem pyLt_asymm : ∀ (a b : List Char), pyLt a b = true → pyLt b a = false := by
  intro a
  induction a with
  | nil =>
    intro b h
    cases b with
    | nil => simp [pyLt] at h
    | cons y ys => rfl
  | cons x xs ih =>
    intro b h
    cases b with
    | nil => simp [pyLt] at h
    | cons y ys =>
      simp [pyLt] at h ⊢
      rcases h with h | ⟨rfl, h⟩
      · exact ⟨le_of_lt h, fun hyx => absurd h (by rw [hyx]; exact lt_irrefl _)⟩
      · exact ⟨le_refl x, fun _ => ih ys h⟩

theorem pyLt_antisymm : ∀ (a b : List Char), pyLt a b = false → pyLt b a = false → a = b := by
  intro a
  induction a with
  | nil =>
    intro b h1 _h2
    cases b with
    | nil => rfl
    | cons y ys => simp [pyLt] at h1
  | cons x xs ih =>
    intro b h1 h2
    cases b with
    | nil => simp [pyLt] at h2
    | cons y ys =>
      simp [pyLt] at h1 h2
      have hxy : x = y := le_antisymm h2.1 h1.1
      subst hxy
      rw [ih ys (h1.2 rfl) (h2.2 rfl)]

theorem pyLt_trans : ∀ (a b c : List Char), pyLt a b = true → pyLt b c = true → pyLt a c = true := by
  intro a
  induction a with
  | nil =>
    intro b c h1 h2
    cases b with
    | nil => simp [pyLt] at h1
    | cons y ys =>
      cases c with
      | nil => simp [pyLt] at h2
      | cons z zs => rfl
  | cons x xs ih =>
    intro b c h1 h2
    cases b with
    | nil => simp [pyLt] at h1
    | cons y ys =>
      cases c with
      | nil => simp [pyLt] at h2
      | cons z zs =>
        simp [pyLt] at h1 h2 ⊢
        rcases h1 with h1 | ⟨rfl, h1⟩
        · rcases h2 with h2 | ⟨rfl, h2⟩
          · exact Or.inl (lt_trans h1 h2)
          · exact Or.inl h1
        · rcases h2 with h2 | ⟨rfl, h2⟩
          · exact Or.inl h2
          · exact Or.inr ⟨rfl, ih ys zs h1 h2⟩

theorem strLe_refl (a : String) : strLe a a := pyLt_irrefl a.data

instance : IsTotal String strLe := by
  constructor
  intro a b
  unfold strLe
  cases h : pyLt b.data a.data with
  | false => exact Or.inl rfl
  | true => exact Or.inr (pyLt_asymm _ _ h)

instance : IsTrans String strLe := by
  constructor
  intro a b c hab hbc
  unfold strLe at hab hbc ⊢
  by_contra hca
  rw [Bool.not_eq_false] at hca
  cases hab2 : pyLt a.data b.data with
  | true => exact absurd (pyLt_trans _ _ _ hca hab2) (by rw [hbc]; simp)
  | false =>
    have : a.data = b.data := pyLt_antisymm _ _ hab2 hab
    rw [this] at hca
    rw [hca] at hbc
    exact Bool.noConfusion hbc

theorem getLastD_mem_of_ne_nil {α : Type} : ∀ (l : List α) (d : α), l ≠ [] → l.getLastD d ∈ l := by
  intro l
  induction l with
  | nil => intro d h; exact absurd rfl h
  | cons a t ih =>
    intro d _h
    cases t with
    | nil => simp
    | cons b ts =>
      rw [List.getLastD_cons]
      exact List.mem_cons_of_mem a (ih a (by simp))

theorem sorted_getLastD_max :
    ∀ (l : List String) (d : String), l.Sorted strLe → ∀ x ∈ l, strLe x (l.getLastD d) := by
  intro l
  induction l with
  | nil => intro d _ x hx; cases hx
  | cons a t ih =>
    intro d h x hx
    rw [List.getLastD_cons]
    rcases List.mem_cons.mp hx with rfl | hxt
    · cases ht : t with
      | nil => simp [ht]; exact strLe_refl x
      | cons b ts =>
        subst ht
        exact List.rel_of_sorted_cons h _ (getLastD_mem_of_ne_nil (b :: ts) x (by simp))
    · exact ih a h.of_cons x hxt

/-! Shared facts about `get_election`, one per control-flow path of the
source function. -/

theorem ge_empty_override (l : List String) : get_election l (some "") = get_election l none := by
  unfold get_election
  cases h : l.mapM secondSeg with
  | none => rfl
  | some segs => simp [truthy]

theorem ge_ambiguous (listing segs : List String) (o : Option String)
    (h1 : listing.mapM secondSeg = some segs) (h2 : 1 < segs.dedup.length)
    (h3 : truthy o = false) :
    get_election listing o = .error .ambiguousElection := by
  unfold get_election
  rw [h1]
  have h0 : (segs.dedup.length == 0) = false := by
    simp only [beq_eq_false_iff_ne, ne_eq]
    omega
  simp [h0, h3, h2]

theorem ge_none_unique (listing segs : List String) (v : String)
    (h1 : listing.mapM secondSeg = some segs) (h2 : segs.dedup = [v]) :
    get_election listing none = .ok v := by
  unfold get_election
  rw [h1]
  simp [h2, truthy]

theorem ge_override_ok (listing segs : List String) (v : String)
    (h1 : listing.mapM secondSeg = some segs) (h2 : segs.dedup = [v]) :
    get_election listing (some v) = .ok v := by
  unfold get_election
  rw [h1]
  by_cases hv : v = ""
  · subst hv; simp [h2, truthy]
  · simp [h2, truthy, hv]

theorem ge_override_notfound (listing segs : List String) (o : String)
    (h1 : listing.mapM secondSeg = some segs) (h2 : segs ≠ [])
    (h3 : o ≠ "") (h4 : o ∉ segs.dedup) :
    get_election listing (some o) = .error .overrideNotFound := by
  unfold get_election
  rw [h1]
  have h0 : (segs.dedup.length == 0) = false := by
    simp [List.length_eq_zero, List.dedup_eq_nil, h2]
  simp [h0, truthy, h3, h4]

/-- C2 (amended): for every listing whose entries all have a second segment
and share exactly one distinct second-segment value `v`, `get_election`
returns `v` when the override is absent (`None`), empty (`""`, falsy in
Python), or equal to `v`; contrary to the original claim, a non-empty
override that is not present in the listing does not return `v` but fails
with `OverrideNotFoundError`. -/
theorem get_election_single_value (listing segs : List String) (v : String)
    (h1 : listing.mapM secondSeg = some segs) (h2 : segs.dedup = [v]) :
    get_election listing none = .ok v ∧
    get_election listing (some "") = .ok v ∧
    get_election listing (some v) = .ok v ∧
    ∀ o, o ≠ "" → o ≠ v → get_election listing (some o) = .error .overrideNotFound := by
  refine ⟨ge_none_unique _ _ _ h1 h2, ?_, ge_override_ok _ _ _ h1 h2, ?_⟩
  · rw [ge_empty_override]
    exact ge_none_unique _ _ _ h1 h2
  · intro o ho hov
    refine ge_override_notfound _ _ _ h1 ?_ ho ?_
    · intro hseg
      rw [hseg] at h2
      simp at h2
    · rw [h2]
      simp [hov]

theorem get_election_single_value_witness :
    get_election ["/E1/a.txt", "/E1/b.txt"] none = .ok "E1" ∧
    get_election ["/E1/a.txt", "/E1/b.txt"] (some "X") = .error .overrideNotFound := by
  have h := get_election_single_value ["/E1/a.txt", "/E1/b.txt"] ["E1", "E1"] "E1"
    (by decide) (by decide)
  exact ⟨h.1, h.2.2.2 "X" (by decide) (by decide)⟩

/-- C2 counterexample: on the listing `["/E1/a.txt"]` (single distinct
second-segment value `"E1"`) with the absent override string `"X"`,
`get_election` does not return `"E1"` as the claim states; it fails with
`OverrideNotFoundError`. -/
theorem get_election_override_counterexample :
    get_election ["/E1/a.txt"] (some "X") ≠ .ok "E1" ∧
    get_election ["/E1/a.txt"] (some "X") = .error .overrideNotFound := by decide

/-- C4: for every listing whose entries have two or more distinct
second-segment values, `get_election` with no override fails with
`AmbiguousElectionError`. -/
theorem get_election_ambiguous (listing segs : List String)
    (h1 : listing.mapM secondSeg = some segs) (h2 : 2 ≤ segs.dedup.length) :
    get_election listing none = .error .ambiguousElection :=
  ge_ambiguous listing segs none h1 h2 rfl

theorem get_election_ambiguous_witness :
    get_election ["/E1/a.txt", "/E2/b.txt"] none = .error .ambiguousElection :=
  get_election_ambiguous ["/E1/a.txt", "/E2/b.txt"] ["E1", "E2"] (by decide) (by decide)

/-- C5 counterexample: on the listing `["/E1/a.txt"]` with the supplied
override `""` — a value absent from the distinct-value set `{"E1"}` —
`get_election` returns `Except.ok "E1"` instead of failing with
`OverrideNotFoundError` as the claim states, because Python treats the
empty string as no override at all. -/
theorem get_election_empty_override_cex :
    get_election ["/E1/a.txt"] (some "") = .ok "E1" ∧
    get_election ["/E1/a.txt"] (some "") ≠ .error .overrideNotFound := by decide

/-- C5 (amended): for every listing that yields at least one second-segment
value and every supplied NON-EMPTY override value absent from the
distinct-value set, `get_election` fails with `OverrideNotFoundError`.
(The original claim fails for the supplied override `""`, which the code
treats as absent, and for the empty listing, which fails with
`NoElectionFoundError` first.) -/
theorem get_election_override_not_found (listing segs : List String) (o : String)
    (h1 : listing.mapM secondSeg = some segs) (h2 : segs ≠ [])
    (h3 : o ≠ "") (h4 : o ∉ segs.dedup) :
    get_election listing (some o) = .error .overrideNotFound :=
  ge_override_notfound listing segs o h1 h2 h3 h4

theorem get_election_override_not_found_witness :
    get_election ["/E1/a.txt"] (some "X") = .error .overrideNotFound :=
  get_election_override_not_found ["/E1/a.txt"] ["E1"] "X"
    (by decide) (by decide) (by decide) (by decide)

/-- C10: `get_election` treats an empty-string override exactly like an
absent override: the two calls agree on every listing; with two or more
distinct second-segment values the result is the ambiguity error (not
`OverrideNotFoundError`), and with exactly one distinct value it is that
value. -/
theorem get_election_empty_override_like_none :
    (∀ l : List String, get_election l (some "") = get_election l none) ∧
    (∀ l segs : List String, l.mapM secondSeg = some segs → 1 < segs.dedup.length →
      get_election l (some "") = .error .ambiguousElection) ∧
    (∀ (l segs : List String) (v : String), l.mapM secondSeg = some segs → segs.dedup = [v] →
      get_election l (some "") = .ok v) := by
  refine ⟨ge_empty_override, ?_, ?_⟩
  · intro l segs h1 h2
    exact ge_ambiguous l segs (some "") h1 h2 rfl
  · intro l segs v h1 h2
    rw [ge_empty_override]
    exact ge_none_unique l segs v h1 h2

theorem get_election_empty_override_like_none_witness :
    get_election ["/E1/a.txt", "/E2/b.txt"] (some "") = .error .ambiguousElection ∧
    get_election ["/E1/a.txt"] (some "") = .ok "E1" :=
  ⟨get_election_empty_override_like_none.2.1 _ ["E1", "E2"] (by decide) (by decide),
   get_election_empty_override_like_none.2.2 _ ["E1"] "E1" (by decide) (by decide)⟩

theorem sortStrings_getLastD_spec (l : List String) (hl : l ≠ []) :
    (sortStrings l).getLastD "" ∈ l ∧ ∀ x ∈ l, strLe x ((sortStrings l).getLastD "") := by
  unfold sortStrings
  have hperm := List.perm_insertionSort strLe l
  have hsorted := List.sorted_insertionSort strLe l
  have hne : l.insertionSort strLe ≠ [] := by
    intro he
    rw [he] at hperm
    exact hl hperm.symm.eq_nil
  constructor
  · exact hperm.subset (getLastD_mem_of_ne_nil _ _ hne)
  · intro x hx
    exact sorted_getLastD_max _ _ hsorted x (hperm.mem_iff.mpr hx)

/-- C1: for every listing and every `(directoryPath, role, suffix)` such
that at least one entry matches (contains `directoryPath` as a substring
and ends with `suffix`), `selectLatest` succeeds and returns the final
path segment of the lexicographically greatest matching entry, warning
(without failing) exactly when more than one match exists for the
`"preload"` role; in particular on the matches
`["results-20240101.zip", "results-20240115.zip", "results-20231231.zip"]`
it selects `"results-20240115.zip"`, and two preload matches produce a
success carrying a warning. -/
theorem selectLatest_selects_lexicographic_max
    (listing : List String) (path role fileExt : String)
    (h : ∃ f ∈ listing, matchesFilter path fileExt f = true) :
    (∃ m ∈ listing, matchesFilter path fileExt m = true ∧
      (∀ x ∈ listing, matchesFilter path fileExt x = true → strLe x m) ∧
      selectLatest listing path role fileExt =
        .ok (decide ((listing.filter (matchesFilter path fileExt)).length > 1) &&
               (role == "preload"),
             lastSegment m)) ∧
    selectLatest ["results-20240101.zip", "results-20240115.zip", "results-20231231.zip"]
        "" "results" ".zip" = .ok (false, "results-20240115.zip") ∧
    selectLatest ["/E1/Detailed/Preload/a.zip", "/E1/Detailed/Preload/b.zip"]
        "/E1/Detailed/Preload" "preload" ".zip" = .ok (true, "b.zip") := by
  refine ⟨?_, by decide, by decide⟩
  obtain ⟨f, hf, hmf⟩ := h
  have hsl : listing.filter (matchesFilter path fileExt) ≠ [] := by
    intro he
    have hmem : f ∈ listing.filter (matchesFilter path fileExt) :=
      List.mem_filter.mpr ⟨hf, hmf⟩
    rw [he] at hmem
    cases hmem
  obtain ⟨hmem, hub⟩ := sortStrings_getLastD_spec _ hsl
  have hmf2 := List.mem_filter.mp hmem
  refine ⟨(sortStrings (listing.filter (matchesFilter path fileExt))).getLastD "",
    hmf2.1, hmf2.2, ?_, ?_⟩
  · intro x hx hmx
    exact hub x (List.mem_filter.mpr ⟨hx, hmx⟩)
  · have hcond : ((listing.filter (matchesFilter path fileExt)).length == 0) = false := by
      simp only [beq_eq_false_iff_ne, ne_eq, List.length_eq_zero]
      exact hsl
    simp only [selectLatest, hcond]
    simp

theorem selectLatest_selects_lexicographic_max_witness :
    (∃ f ∈ ["/E1/Standard/Light/results-20240101.zip", "/E1/Standard/Light/results-20240102.zip"],
      matchesFilter "/E1/Standard/Light" ".zip" f = true) ∧
    (∃ m ∈ ["/E1/Standard/Light/results-20240101.zip", "/E1/Standard/Light/results-20240102.zip"],
      matchesFilter "/E1/Standard/Light" ".zip" m = true ∧
      (∀ x ∈ ["/E1/Standard/Light/results-20240101.zip", "/E1/Standard/Light/results-20240102.zip"],
        matchesFilter "/E1/Standard/Light" ".zip" x = true → strLe x m) ∧
      selectLatest ["/E1/Standard/Light/results-20240101.zip", "/E1/Standard/Light/results-20240102.zip"]
          "/E1/Standard/Light" "results" ".zip" =
        .ok (decide ((["/E1/Standard/Light/results-20240101.zip",
                "/E1/Standard/Light/results-20240102.zip"].filter
              (matchesFilter "/E1/Standard/Light" ".zip")).length > 1) &&
            ("results" == "preload"),
          lastSegment m)) :=
  ⟨by decide,
   (selectLatest_selects_lexicographic_max
      ["/E1/Standard/Light/results-20240101.zip", "/E1/Standard/Light/results-20240102.zip"]
      "/E1/Standard/Light" "results" ".zip" (by decide)).1⟩

/-- C3 (amended): `tracked_files` maps each role to at most one path, and
every invocation of `download_file` records `cacheDir/fileName` as that
role's path, leaving other roles untouched. Consequently the recorded path
is preserved when the candidate file name is unchanged, but — contrary to
the original claim — a subsequent invocation for the same role with a
DIFFERENT candidate file name does overwrite the recorded path
(elec_grabber.py:166 assigns unconditionally). -/
theorem download_file_records_selected_candidate (s : GrabberState) (dir name role : String) :
    (download_file s dir name role).1.tracked role = some (localPath s.cacheDir name) ∧
    ∀ r, r ≠ role → (download_file s dir name role).1.tracked r = s.tracked r := by
  constructor
  · by_cases hfs : s.fs (localPath s.cacheDir name) = true <;> simp [download_file, hfs]
  · intro r hr
    by_cases hfs : s.fs (localPath s.cacheDir name) = true <;>
      simp [download_file, hfs, hr]

theorem download_file_records_selected_candidate_witness :
    (download_file { cacheDir := "/cache", fs := fun _ => false, tracked := fun _ => none }
        "/E1/Detailed/Preload" "a.zip" "preload").1.tracked "preload" =
      some (localPath "/cache" "a.zip") ∧
    (download_file { cacheDir := "/cache", fs := fun _ => false, tracked := fun _ => none }
        "/E1/Detailed/Preload" "a.zip" "preload").1.tracked "results" = none :=
  ⟨(download_file_records_selected_candidate _ "/E1/Detailed/Preload" "a.zip" "preload").1,
   (download_file_records_selected_candidate _ "/E1/Detailed/Preload" "a.zip" "preload").2
     "results" (by decide)⟩

/-- C3 counterexample: a session that has recorded
`tracked_files["results"] = "/cache/a.zip"` and then invokes the download
for role `"results"` with the different candidate `"b.zip"` ends with the
recorded path overwritten to `"/cache/b.zip"`. -/
theorem tracked_files_overwritten_counterexample :
    ((download_file
        { cacheDir := "/cache",
          fs := fun p => p == "/cache/a.zip",
          tracked := fun r => if r == "results" then some "/cache/a.zip" else none }
        "/E1/Standard/Light" "b.zip" "results").1.tracked "results" = some "/cache/b.zip") ∧
    (({ cacheDir := "/cache",
        fs := fun p => p == "/cache/a.zip",
        tracked := fun r => if r == "results" then some "/cache/a.zip" else none } :
          GrabberState).tracked "results" = some "/cache/a.zip") ∧
    some "/cache/b.zip" ≠ (some "/cache/a.zip" : Option String) := by
  refine ⟨rfl, rfl, by decide⟩

/-- C6: starting from a state in which `cacheDir/fileName` does not yet
exist, calling `download_file` twice with the same directory, file name
and role performs exactly one network transfer — the first call transfers,
the second call issues no transfer because the file now exists — and the
recorded local path after the second call equals the one after the
first. -/
theorem download_file_idempotent (s : GrabberState) (dir name role : String)
    (h : s.fs (localPath s.cacheDir name) = false) :
    (download_file s dir name role).2 = true ∧
    (download_file (download_file s dir name role).1 dir name role).2 = false ∧
    (download_file (download_file s dir name role).1 dir name role).1.tracked role =
      (download_file s dir name role).1.tracked role := by
  unfold download_file
  simp [h]

theorem download_file_idempotent_witness :
    (fun (_ : String) => false) (localPath "/cache" "a.zip") = false ∧
    ((download_file { cacheDir := "/cache", fs := fun _ => false, tracked := fun _ => none }
        "/dir" "a.zip" "results").2 = true ∧
     (download_file (download_file
          { cacheDir := "/cache", fs := fun _ => false, tracked := fun _ => none }
          "/dir" "a.zip" "results").1 "/dir" "a.zip" "results").2 = false ∧
     (download_file (download_file
          { cacheDir := "/cache", fs := fun _ => false, tracked := fun _ => none }
          "/dir" "a.zip" "results").1 "/dir" "a.zip" "results").1.tracked "results" =
       (download_file { cacheDir := "/cache", fs := fun _ => false, tracked := fun _ => none }
          "/dir" "a.zip" "results").1.tracked "results") :=
  ⟨rfl, download_file_idempotent
    { cacheDir := "/cache", fs := fun _ => false, tracked := fun _ => none }
    "/dir" "a.zip" "results" rfl⟩

/-- C7: on the listing `["/E1/Detailed/Preload/preload-1.zip",
"/E1/Standard/Light/results-20240101.zip",
"/E1/Standard/Light/results-20240102.zip"]` with no override, the
orchestration resolves the election to `"E1"`, selects `"preload-1.zip"`
for the preload bundle and `"results-20240102.zip"` for the results
bundle. -/
theorem grabber_init_end_to_end :
    (grabber_init
        ["/E1/Detailed/Preload/preload-1.zip", "/E1/Standard/Light/results-20240101.zip",
         "/E1/Standard/Light/results-20240102.zip"] none "/cache"
        (fun _ => false)).toOption.map (fun r => r.election) = some "E1" ∧
    (grabber_init
        ["/E1/Detailed/Preload/preload-1.zip", "/E1/Standard/Light/results-20240101.zip",
         "/E1/Standard/Light/results-20240102.zip"] none "/cache"
        (fun _ => false)).toOption.map (fun r => r.preloadName) = some "preload-1.zip" ∧
    (grabber_init
        ["/E1/Detailed/Preload/preload-1.zip", "/E1/Standard/Light/results-20240101.zip",
         "/E1/Standard/Light/results-20240102.zip"] none "/cache"
        (fun _ => false)).toOption.map (fun r => r.resultsName) = some "results-20240102.zip" :=
  ⟨rfl, rfl, rfl⟩

/-- C8: for every successful orchestration run, the three archive members
passed to the extractor are exactly the fixed templates with the resolved
election identifier substituted, in the order election-info, candidates,
results. -/
theorem grabber_init_extracts_templated_members
    (listing : List String) (override : Option String) (cacheDir : String)
    (fs0 : String → Bool) (r : InitResult)
    (h : grabber_init listing override cacheDir fs0 = .ok r) :
    r.extractTrace.map Prod.snd =
      ["xml/eml-110-event-" ++ r.election ++ ".xml",
       "xml/eml-230-candidates-" ++ r.election ++ ".xml",
       "xml/aec-mediafeed-results-standard-light-" ++ r.election ++ ".xml"] := by
  unfold grabber_init at h
  split at h
  · exact absurd h (by simp)
  · split at h
    · exact absurd h (by simp)
    · split at h
      · exact absurd h (by simp)
      · split at h
        · exact absurd h (by simp)
        · injection h with h'
          rw [← h']
          simp [electionMemberName, candidatesMemberName, resultsMemberName]

theorem grabber_init_extracts_templated_members_witness :
    (grabber_init
        ["/E1/Detailed/Preload/preload-1.zip", "/E1/Standard/Light/results-20240102.zip"]
        none "/cache" (fun _ => false)).toOption.map
      (fun r => r.extractTrace.map Prod.snd) =
    (grabber_init
        ["/E1/Detailed/Preload/preload-1.zip", "/E1/Standard/Light/results-20240102.zip"]
        none "/cache" (fun _ => false)).toOption.map
      (fun r =>
        ["xml/eml-110-event-" ++ r.election ++ ".xml",
         "xml/eml-230-candidates-" ++ r.election ++ ".xml",
         "xml/aec-mediafeed-results-standard-light-" ++ r.election ++ ".xml"]) := by
  cases hg : grabber_init
      ["/E1/Detailed/Preload/preload-1.zip", "/E1/Standard/Light/results-20240102.zip"]
      none "/cache" (fun _ => false) with
  | error err => rfl
  | ok r =>
    simp [Except.toOption, grabber_init_extracts_templated_members
      ["/E1/Detailed/Preload/preload-1.zip", "/E1/Standard/Light/results-20240102.zip"]
      none "/cache" (fun _ => false) r hg]

/-- C9: whenever the remote traversal accumulates zero path entries,
`refresh_ftp_file_list` fails with `EmptyListingError` rather than
returning an empty listing; hence every listing the session ever holds
(every `Except.ok` result) is non-empty. -/
theorem refresh_ftp_file_list_nonempty :
    (∀ (server : FtpTree) (l : List String),
      refresh_ftp_file_list server = .ok l → l ≠ []) ∧
    (∀ server : FtpTree, recurse_get_paths "" server = [] →
      refresh_ftp_file_list server = .error .emptyListing) := by
  constructor
  · intro server l h hnil
    subst hnil
    unfold refresh_ftp_file_list at h
    by_cases hc : ((sortStrings (recurse_get_paths "" server)).length == 0) = true
    · simp [hc] at h
    · simp [hc] at h
      exact hc (by rw [h]; rfl)
  · intro server hrec
    unfold refresh_ftp_file_list
    rw [hrec]
    rfl

theorem refresh_ftp_file_list_nonempty_witness :
    (["/E1", "/E1/a.txt"] ≠ ([] : List String)) ∧
    refresh_ftp_file_list (.node []) = .error .emptyListing :=
  ⟨refresh_ftp_file_list_nonempty.1 (.node [("E1", .node [("a.txt", .node [])])])
      ["/E1", "/E1/a.txt"]
      (by simp [refresh_ftp_file_list, recurse_get_paths]; decide),
   refresh_ftp_file_list_nonempty.2 (.node []) (by simp [recurse_get_paths])⟩
